import Mathlib

/-!
Verification of `scripts/test-mcp.py`, a conformance test client for an MCP
server speaking JSON-RPC 2.0 over HTTP with optional SSE framing.

The script is embedded shallowly:
* Python strings are `List Char`;
* JSON values are the inductive `Json` (numbers as `ℚ`);
* `json.loads` is modelled by the executable parser `json_loads`;
* Python runtime errors (`KeyError`, `TypeError`, `AttributeError`) are the
  inductive `PyErr`; computations that can raise return `Except PyErr _`
  or a pair of the events emitted before the crash and the crash;
* the HTTP layer is abstracted by `HttpOutcome` (the three ways
  `urllib.request.urlopen` can come back in the script: a response object,
  an `HTTPError`, or a `URLError`);
* the module-level scenario code is the function `runScript`, driven by one
  `HttpOutcome` per HTTP call the script makes.
-/

namespace QtradeTestMcp

set_option maxRecDepth 8000

/-- Python strings, modelled as lists of characters. -/
abbrev Str := List Char

/-- The characters on which Python's `str.splitlines` splits. -/
def isLineBreak (c : Char) : Bool :=
  c = '\n' || c = '\r' || c = '\x0b' || c = '\x0c' ||
  c = '\x1c' || c = '\x1d' || c = '\x1e' || c = '\x85' ||
  c = '\u2028' || c = '\u2029'

/-- Model of Python `str.splitlines()`: split on line-break characters,
treating `\r\n` as a single break; no trailing empty line. -/
def pySplitlines : Str → List Str
  | [] => []
  | [c] => if isLineBreak c then [[]] else [[c]]
  | c :: r2 :: rest2 =>
    if isLineBreak c then
      if c = '\r' && r2 = '\n' then [] :: pySplitlines rest2
      else [] :: pySplitlines (r2 :: rest2)
    else
      match pySplitlines (r2 :: rest2) with
      | [] => [[c]]
      | l :: ls => (c :: l) :: ls

/-- Model of Python's substring test `needle in hay` on strings. -/
def containsSub (needle : Str) : Str → Bool
  | [] => needle.isPrefixOf []
  | c :: rest => needle.isPrefixOf (c :: rest) || containsSub needle rest

/-- JSON values as parsed by `json.loads`.  A number is kept as the exact
decimal `mant * 10 ^ exp` (so `1` is `num 1 0` and `0.01` is `num 1 (-2)`);
object member lists have unique keys (the parser keeps the last value for
a duplicated key, as Python does). -/
inductive Json where
  | null
  | bool (b : Bool)
  | num (mant : Int) (exp : Int)
  | str (s : String)
  | arr (xs : List Json)
  | obj (kvs : List (String × Json))

/-- First-match lookup in a JSON object's member list. -/
def jLookup (k : String) : List (String × Json) → Option Json
  | [] => none
  | (k', v) :: rest => if k' = k then some v else jLookup k rest

/-- Insert a member into an object's member list, overwriting the value of
an existing key in place (Python `dict` semantics for duplicate keys). -/
def objInsert (kvs : List (String × Json)) (k : String) (v : Json) :
    List (String × Json) :=
  if kvs.any (fun kv => kv.1 == k) then
    kvs.map (fun kv => if kv.1 == k then (k, v) else kv)
  else kvs ++ [(k, v)]

/-! ### A model of `json.loads`

An executable strict-JSON parser.  Divergences from CPython's `json.loads`
that are irrelevant to every input considered here: the `NaN`/`Infinity`
extensions are rejected, and a `\uXXXX` escape is decoded as a single code
point (no surrogate-pair combining). -/

/-- The whitespace characters `json.loads` skips between tokens. -/
def isJsonWs (c : Char) : Bool :=
  c = ' ' || c = '\t' || c = '\n' || c = '\r'

/-- Drop leading JSON whitespace. -/
def skipWs (s : Str) : Str := s.dropWhile isJsonWs

/-- Value of a hexadecimal digit character. -/
def hexDigit (c : Char) : Option Nat :=
  if '0' ≤ c && c ≤ '9' then some (c.toNat - 48)
  else if 'a' ≤ c && c ≤ 'f' then some (c.toNat - 87)
  else if 'A' ≤ c && c ≤ 'F' then some (c.toNat - 55)
  else none

/-- Parse the body of a JSON string literal (after the opening quote),
returning the decoded characters and the input after the closing quote. -/
def parseStrBody : Str → Option (Str × Str)
  | [] => none
  | '"' :: rest => some ([], rest)
  | '\\' :: 'u' :: a :: b :: c :: d :: rest => do
    let ha ← hexDigit a
    let hb ← hexDigit b
    let hc ← hexDigit c
    let hd ← hexDigit d
    let (cs, r) ← parseStrBody rest
    some (Char.ofNat (ha * 4096 + hb * 256 + hc * 16 + hd) :: cs, r)
  | '\\' :: e :: rest => do
    let c ← match e with
      | '"' => some '"'
      | '\\' => some '\\'
      | '/' => some '/'
      | 'b' => some '\x08'
      | 'f' => some '\x0c'
      | 'n' => some '\n'
      | 'r' => some '\r'
      | 't' => some '\t'
      | _ => none
    let (cs, r) ← parseStrBody rest
    some (c :: cs, r)
  | c :: rest =>
    if c.toNat < 32 then none
    else do
      let (cs, r) ← parseStrBody rest
      some (c :: cs, r)

/-- Numeric value of a digit string. -/
def digitsToNat (ds : Str) : Nat :=
  ds.foldl (fun n c => n * 10 + (c.toNat - 48)) 0

/-- Split a string into its leading digits and the remainder. -/
def splitDigits (s : Str) : Str × Str :=
  (s.takeWhile Char.isDigit, s.dropWhile Char.isDigit)

/-- Parse a JSON number (strict grammar: optional sign, integer part with no
leading zeros, optional fraction, optional exponent), as an exact decimal
`mant * 10 ^ exp`. -/
def parseNum (s : Str) : Option (Int × Int × Str) := do
  let (neg, s1) := match s with
    | '-' :: r => (true, r)
    | _ => (false, s)
  let (ids, s2) ← match s1 with
    | '0' :: r => some ((['0'] : Str), r)
    | c :: r =>
      if c.isDigit then some (splitDigits (c :: r))
      else none
    | [] => none
  let (fds, s3) ← match s2 with
    | '.' :: r =>
      let (ds, r') := splitDigits r
      if ds.isEmpty then none else some (ds, r')
    | _ => some (([] : Str), s2)
  let (esign, eds, s4) ← match s3 with
    | 'e' :: r | 'E' :: r =>
      let (sg, r1) := match r with
        | '+' :: r2 => ((1 : Int), r2)
        | '-' :: r2 => ((-1 : Int), r2)
        | _ => ((1 : Int), r)
      let (ds, r2) := splitDigits r1
      if ds.isEmpty then none else some (sg, ds, r2)
    | _ => some ((1 : Int), ([] : Str), s3)
  let mag : Int := (digitsToNat (ids ++ fds) : Int)
  let mant : Int := if neg then -mag else mag
  let e : Int := esign * (digitsToNat eds : Int) - (fds.length : Int)
  some (mant, e, s4)

mutual

/-- Parse one JSON value; `fuel` bounds the nesting recursion. -/
def parseValue : Nat → Str → Option (Json × Str)
  | 0, _ => none
  | fuel + 1, s =>
    match skipWs s with
    | '"' :: r => (parseStrBody r).map fun p => (Json.str (String.mk p.1), p.2)
    | '\x7b' :: r =>
      (match skipWs r with
       | '\x7d' :: r2 => some (Json.obj [], r2)
       | _ => parseMembers fuel r [])
    | '[' :: r =>
      (match skipWs r with
       | ']' :: r2 => some (Json.arr [], r2)
       | _ => parseItems fuel r [])
    | 't' :: 'r' :: 'u' :: 'e' :: r => some (Json.bool true, r)
    | 'f' :: 'a' :: 'l' :: 's' :: 'e' :: r => some (Json.bool false, r)
    | 'n' :: 'u' :: 'l' :: 'l' :: r => some (Json.null, r)
    | s' => (parseNum s').map fun p => (Json.num p.1 p.2.1, p.2.2)

/-- Parse the members of a JSON object after the opening brace. -/
def parseMembers : Nat → Str → List (String × Json) → Option (Json × Str)
  | 0, _, _ => none
  | fuel + 1, s, acc =>
    match skipWs s with
    | '"' :: r => do
      let (kcs, r1) ← parseStrBody r
      match skipWs r1 with
      | ':' :: r2 => do
        let (v, r3) ← parseValue fuel r2
        let acc' := objInsert acc (String.mk kcs) v
        match skipWs r3 with
        | ',' :: r4 => parseMembers fuel r4 acc'
        | '\x7d' :: r4 => some (Json.obj acc', r4)
        | _ => none
      | _ => none
    | _ => none

/-- Parse the items of a JSON array after the opening bracket. -/
def parseItems : Nat → Str → List Json → Option (Json × Str)
  | 0, _, _ => none
  | fuel + 1, s, acc => do
    let (v, r) ← parseValue fuel s
    match skipWs r with
    | ',' :: r2 => parseItems fuel r2 (acc ++ [v])
    | ']' :: r2 => some (Json.arr (acc ++ [v]), r2)
    | _ => none

end

/-- Model of `json.loads`: parse one JSON document, requiring only
whitespace after it. -/
def json_loads (s : Str) : Option Json :=
  match parseValue (s.length + 1) s with
  | some (j, rest) => if (skipWs rest).isEmpty then some j else none
  | none => none

/-! ### Python runtime semantics used by the script -/

/-- The Python exceptions the script can raise. -/
inductive PyErr where
  | keyError (k : String)
  | typeError (m : String)
  | attributeError (m : String)
deriving DecidableEq

/-- Python truthiness of a JSON value. -/
def pyTruthy : Json → Bool
  | .null => false
  | .bool b => b
  | .num m _ => m != 0
  | .str s => !s.isEmpty
  | .arr xs => !xs.isEmpty
  | .obj kvs => !kvs.isEmpty

/-- Numeric equality of two exact decimals `m1 * 10 ^ e1` and
`m2 * 10 ^ e2`, by cross-scaling to integers. -/
def jnumEq (m1 e1 m2 e2 : Int) : Bool :=
  if e2 ≤ e1 then m1 * (10 : Int) ^ (e1 - e2).toNat == m2
  else m1 == m2 * (10 : Int) ^ (e2 - e1).toNat

/-- Python `j[k]` with a string subscript: key lookup on a dict
(`KeyError` when absent), `TypeError` on every other value. -/
def pyIndex (j : Json) (k : String) : Except PyErr Json :=
  match j with
  | .obj kvs =>
    match jLookup k kvs with
    | some v => .ok v
    | none => .error (.keyError k)
  | _ => .error (.typeError "subscript")

/-- Python `j.get(k, d)`: only dicts have `.get`; everything else raises
`AttributeError`. -/
def jGet (j : Json) (k : String) (d : Json) : Except PyErr Json :=
  match j with
  | .obj kvs => .ok ((jLookup k kvs).getD d)
  | _ => .error (.attributeError "get")

/-- Python `list(j.keys())`. -/
def pyKeys (j : Json) : Except PyErr (List String) :=
  match j with
  | .obj kvs => .ok (kvs.map (fun kv => kv.1))
  | _ => .error (.attributeError "keys")

/-- Python iteration `for x in j`: list elements, dict keys, or the
characters of a string; `TypeError` otherwise. -/
def pyIter (j : Json) : Except PyErr (List Json) :=
  match j with
  | .arr xs => .ok xs
  | .obj kvs => .ok (kvs.map (fun kv => Json.str kv.1))
  | .str s => .ok (s.toList.map (fun c => Json.str (String.mk [c])))
  | _ => .error (.typeError "not iterable")

/-- Python `s == j` for a string `s` against an arbitrary value: equal only
to an equal string (never to numbers, booleans, containers or None). -/
def pyEqStr (s : String) (j : Json) : Bool :=
  match j with
  | .str t => s == t
  | _ => false

/-- Python `==` between hashable scalar values, as used for membership in a
set: strings, numbers, booleans and None, with `True == 1`-style
bool/number cross equality. -/
def pyEqScalar (a b : Json) : Bool :=
  match a, b with
  | .str s, .str t => s == t
  | .num m1 e1, .num m2 e2 => jnumEq m1 e1 m2 e2
  | .bool x, .bool y => x == y
  | .null, .null => true
  | .bool x, .num m e | .num m e, .bool x => jnumEq (if x then 1 else 0) 0 m e
  | _, _ => false

/-- Adding a value to a Python set: lists and dicts are unhashable
(`TypeError`); a value equal to an existing element is not added again. -/
def pySetAdd (s : List Json) (x : Json) : Except PyErr (List Json) :=
  match x with
  | .arr _ => .error (.typeError "unhashable")
  | .obj _ => .error (.typeError "unhashable")
  | _ => .ok (if s.any (pyEqScalar x) then s else s ++ [x])

/-- Python `"x, y"`-style membership `k in j` for a string `k`: dict key
test, list membership, substring test on strings, `TypeError` otherwise. -/
def pyInStr (k : String) (j : Json) : Except PyErr Bool :=
  match j with
  | .obj kvs => .ok (kvs.any (fun kv => kv.1 == k))
  | .arr xs => .ok (xs.any (pyEqStr k))
  | .str t => .ok (containsSub k.toList t.toList)
  | _ => .error (.typeError "argument of type is not iterable")

/-- Extract the strings of a list of values, `TypeError` on any
non-string (the check `str.join` performs element by element). -/
def pyStrList : List Json → Except PyErr (List String)
  | [] => .ok []
  | Json.str s :: rest => (pyStrList rest).map (fun ss => s :: ss)
  | _ :: _ => .error (.typeError "join")

/-- Python `"\n".join(xs)`: every element must be a string. -/
def pyJoinNL (xs : List Json) : Except PyErr String :=
  (pyStrList xs).map (fun ss => String.intercalate "\n" ss)

/-! ### The Transport Adapter: `mcp_post` (source lines 55-102) and
`mcp_notify` (lines 105-107) -/

/-- The SSE field marker `"data: "` the script scans for. -/
def dataTag : Str := "data: ".toList

/-- The body of the `for line in body.splitlines()` loop (source lines
81-87): the first line starting with `"data: "` whose remainder parses as
JSON; a line that starts with the marker but fails to parse is skipped. -/
def findData : List Str → Option Json
  | [] => none
  | l :: ls =>
    if dataTag.isPrefixOf l then
      match json_loads (l.drop dataTag.length) with
      | some j => some j
      | none => findData ls
    else findData ls

/-- Response-body decoding of `mcp_post` (source lines 79-93): if the body
contains `"data: "`, scan its lines for parseable `data: ` payloads and
return the first; with no hit, fall through to parsing the whole body;
`None` when that also fails. -/
def decodeBody (body : Str) : Option Json :=
  if containsSub dataTag body then
    match findData (pySplitlines body) with
    | some j => some j
    | none => json_loads body
  else json_loads body

/-- The three ways an HTTP call comes back in the script: a response
object (session header, decoded body text, status), an
`urllib.error.HTTPError` (status code, whether `e.fp` is set, body),
or a `urllib.error.URLError` (covering connection failures and
timeouts). -/
inductive HttpOutcome where
  | success (sid : Option String) (body : Str) (status : Nat)
  | httpError (code : Nat) (hasBody : Bool) (body : Str)
  | urlError
deriving DecidableEq

/-- A request as put on the wire: the JSON-RPC payload and the headers. -/
structure SentRequest where
  payload : Json
  headers : List (String × String)

/-- The two constant request headers (source lines 60-63). -/
def baseHeaders : List (String × String) :=
  [("Content-Type", "application/json"),
   ("Accept", "application/json, text/event-stream")]

/-- Headers of an outgoing request: the base headers plus
`Mcp-Session-Id` when the cached session id is truthy (source lines
64-65; an empty string is falsy in Python and is not attached). -/
def reqHeaders (session : Option String) : List (String × String) :=
  baseHeaders ++
    (match session with
     | some s => if s.isEmpty then [] else [("Mcp-Session-Id", s)]
     | none => [])

/-- Session-cache update on a response (source lines 72-74): a truthy
`Mcp-Session-Id` response header overwrites the cache; an absent or empty
header leaves it unchanged. -/
def sessionUpdate (session : Option String) (sid : Option String) :
    Option String :=
  match sid with
  | some s => if s.isEmpty then session else some s
  | none => session

/-- `mcp_post` (source lines 55-102) as a function of the cached session
id, the payload, and the HTTP outcome.  Returns the request as sent, the
new cached session id, and the `(parsed_json, http_status)` pair the
Python function returns: the decoded body on success, `(None, 202)` for an
HTTPError with code 202, `(None, code)` for any other HTTPError, and
`(None, 0)` for a URLError. -/
def mcp_post (session : Option String) (payload : Json) (o : HttpOutcome) :
    SentRequest × Option String × Option Json × Nat :=
  let req : SentRequest := ⟨payload, reqHeaders session⟩
  match o with
  | .success sid body status => (req, sessionUpdate session sid, decodeBody body, status)
  | .httpError code _hasBody _body =>
    (req, session, none, if code == 202 then 202 else code)
  | .urlError => (req, session, none, 0)

/-- Payload of a JSON-RPC notification (no `id`). -/
def notifPayload (m : String) : Json :=
  .obj [("jsonrpc", .str "2.0"), ("method", .str m)]

/-- `mcp_notify` (source lines 105-107): send a notification through
`mcp_post` and discard the returned value.  Only the sent request and the
session-cache effect remain observable. -/
def mcp_notify (session : Option String) (m : String) (o : HttpOutcome) :
    SentRequest × Option String :=
  let r := mcp_post session (notifPayload m) o
  (r.1, r.2.1)

/-! ### The Scenario Runner (module-level code, source lines 110-283)

Console formatting is out of scope; each `ok`/`fail`/`info` call is
modelled as a structured event carrying the data the printed line is
built from. -/

/-- The content of a printed line, with the data it interpolates. -/
inductive Msg where
  | initOk
  | serverLine (name version : Json)
  | sessionLine (sid : String)
  | protoLine (proto : Json)
  | initNameMismatch (name : Json)
  | initAbnormal (status : Nat) (resp : Option Json)
  | toolsOk (n : Nat)
  | toolLine (name : Json) (props : List String) (desc : Json)
  | toolsMissing (missing : List String)
  | toolsActual (names : List Json)
  | toolsAbnormal (status : Nat) (resp : Option Json)
  | callDone (tag : Nat) (isErr : Bool)
  | textLine (tag : Nat) (line : String)
  | callRpcError (tag : Nat)
  | rpcErrLine (tag : Nat) (code message : Json)
  | callAbnormal (tag : Nat) (status : Nat) (resp : Option Json)

/-- One emitted console event: `ok` bumps the passed counter, `fail` the
failed counter, `info` neither. -/
inductive Ev where
  | pass (m : Msg)
  | fail (m : Msg)
  | note (m : Msg)

/-- Result of running one scenario's assertion code: the events emitted in
order, and the uncaught exception if the scenario crashed after emitting
them. -/
abbrev ScenRes := List Ev × Option PyErr

/-- The running pass/fail counters (the script's globals). -/
structure St where
  passed : Nat
  failed : Nat
deriving DecidableEq

/-- Apply one event to the counters. -/
def stApply1 (st : St) (e : Ev) : St :=
  match e with
  | .pass _ => { st with passed := st.passed + 1 }
  | .fail _ => { st with failed := st.failed + 1 }
  | .note _ => st

/-- Apply a scenario's events to the counters. -/
def stApply (st : St) (evs : List Ev) : St := evs.foldl stApply1 st

/-- Python `resp and "k" in resp` for an optional parsed body: `None` and
falsy values short-circuit to false; otherwise the membership test runs
(and can raise `TypeError` on numbers, booleans and the like). -/
def respHasKey (resp : Option Json) (k : String) : Except PyErr Bool :=
  match resp with
  | none => .ok false
  | some j => if pyTruthy j then pyInStr k j else .ok false

/-- Python `sid[:16]`. -/
def strTake16 (s : String) : String := String.mk (s.toList.take 16)

/-- Test 1 verdict code (source lines 139-156), given the parsed body, the
status, and the session id cached after the call. -/
def test1Check (resp : Option Json) (status : Nat) (session : Option String) :
    ScenRes :=
  match respHasKey resp "result" with
  | .error e => ([], some e)
  | .ok false => ([Ev.fail (.initAbnormal status resp)], none)
  | .ok true =>
    let inner : Except PyErr (List Ev) := do
      let j := resp.getD .null
      let result ← pyIndex j "result"
      let serverInfo ← jGet result "serverInfo" (.obj [])
      let name ← jGet serverInfo "name" (.str "?")
      let version ← jGet serverInfo "version" (.str "?")
      if pyEqStr "qtrade-mcp" name then do
        let sidEvs := match session with
          | some sid => if sid.isEmpty then [] else [Ev.note (.sessionLine (strTake16 sid))]
          | none => []
        let proto ← jGet result "protocolVersion" (.str "?")
        pure ([Ev.pass .initOk, Ev.note (.serverLine name version)] ++ sidEvs ++
          [Ev.note (.protoLine proto)])
      else
        pure [Ev.fail (.initNameMismatch name)]
    match inner with
    | .ok evs => (evs, none)
    | .error e => ([], some e)

/-- The fixed required tool set of Test 2 (source line 173). -/
def expectedTools : List String := ["hk_buy", "hk_sell", "get_quote"]

/-- The set comprehension building `tool_names` (source line 177): index
each descriptor with `"name"` and add the value to a set. -/
def toolNamesOf (tools : List Json) : Except PyErr (List Json) :=
  tools.foldlM (fun s t => do
    let n ← pyIndex t "name"
    pySetAdd s n) []

/-- One iteration of Test 2's per-tool info loop (source lines 181-185). -/
def toolInfoLine (t : Json) : Except PyErr Msg := do
  let name ← pyIndex t "name"
  let descV ← jGet t "description" (.str "")
  let desc ← match descV with
    | Json.str s => Except.ok (Json.str (String.mk (s.toList.take 40)))
    | Json.arr xs => Except.ok (Json.arr (xs.take 40))
    | _ => Except.error (PyErr.typeError "slice")
  let schema ← jGet t "inputSchema" (.obj [])
  let propsJ ← jGet schema "properties" (.obj [])
  let props ← pyKeys propsJ
  pure (.toolLine name props desc)

/-- Test 2's info loop, keeping the lines emitted before a crash. -/
def toolInfoLines : List Json → List Ev × Option PyErr
  | [] => ([], none)
  | t :: rest =>
    match toolInfoLine t with
    | .ok m =>
      let r := toolInfoLines rest
      (Ev.note m :: r.1, r.2)
    | .error e => ([], some e)

/-- The crash-prone prelude of Test 2 (source lines 176-177): fetch
`result`, default `tools`, iterate it and build the name set. -/
def test2Core (resp : Option Json) : Except PyErr (List Json × List Json) := do
  let j := resp.getD .null
  let result ← pyIndex j "result"
  let toolsJ ← jGet result "tools" (.arr [])
  let tools ← pyIter toolsJ
  let names ← toolNamesOf tools
  pure (tools, names)

/-- Test 2 verdict code (source lines 175-192). -/
def test2Check (resp : Option Json) (status : Nat) : ScenRes :=
  match respHasKey resp "result" with
  | .error e => ([], some e)
  | .ok false => ([Ev.fail (.toolsAbnormal status resp)], none)
  | .ok true =>
    match test2Core resp with
    | .error e => ([], some e)
    | .ok (tools, names) =>
      if expectedTools.all (fun e => names.any (pyEqStr e)) then
        let r := toolInfoLines tools
        (Ev.pass (.toolsOk tools.length) :: r.1, r.2)
      else
        let missing := expectedTools.filter (fun e => !(names.any (pyEqStr e)))
        ([Ev.fail (.toolsMissing missing), Ev.note (.toolsActual names)], none)

/-- One step of the list comprehension of Tests 3 and 4 (source lines
215/259): keep `c["text"]` when `c.get("type") == "text"`. -/
def textsStep (acc : List Json) (c : Json) : Except PyErr (List Json) := do
  let ty ← jGet c "type" .null
  if pyEqStr "text" ty then do
    let tx ← pyIndex c "text"
    pure (acc ++ [tx])
  else pure acc

/-- The list comprehension of Tests 3 and 4 (source lines 215/259):
`[c["text"] for c in content if c.get("type") == "text"]`. -/
def textsOf (content : List Json) : Except PyErr (List Json) :=
  content.foldlM textsStep []

/-- The crash-prone prelude of Tests 3 and 4 (source lines 212-216 and
256-260): fetch `result`, default `isError` and `content`, extract the
text items and join them. -/
def toolCallCore (resp : Option Json) : Except PyErr (Bool × String) := do
  let j := resp.getD .null
  let result ← pyIndex j "result"
  let isErrV ← jGet result "isError" (.bool false)
  let contentJ ← jGet result "content" (.arr [])
  let content ← pyIter contentJ
  let texts ← textsOf content
  let text ← pyJoinNL texts
  pure (pyTruthy isErrV, text)

/-- The error-echo prelude of Tests 3 and 4 (source lines 226-227 and
271-272): fetch the `error` member and its code and message. -/
def rpcErrCore (resp : Option Json) : Except PyErr (Json × Json) := do
  let j := resp.getD .null
  let err ← pyIndex j "error"
  let c ← jGet err "code" .null
  let m ← jGet err "message" .null
  pure (c, m)

/-- Verdict code shared by Test 3 (source lines 211-230) and Test 4
(source lines 255-275); `tag` is the test number, which only changes the
printed text. -/
def toolCallCheck (tag : Nat) (resp : Option Json) (status : Nat) : ScenRes :=
  match respHasKey resp "result" with
  | .error e => ([], some e)
  | .ok true =>
    match toolCallCore resp with
    | .error e => ([], some e)
    | .ok (isErr, text) =>
      (Ev.pass (.callDone tag isErr) ::
        (pySplitlines text.toList).map (fun l => Ev.note (.textLine tag (String.mk l))),
       none)
  | .ok false =>
    match respHasKey resp "error" with
    | .error e => ([], some e)
    | .ok false => ([Ev.fail (.callAbnormal tag status resp)], none)
    | .ok true =>
      match rpcErrCore resp with
      | .ok (c, m) => ([Ev.fail (.callRpcError tag), Ev.note (.rpcErrLine tag c m)], none)
      | .error e => ([Ev.fail (.callRpcError tag)], some e)

/-- The `initialize` request payload (source lines 119-131). -/
def initPayload : Json :=
  .obj [("jsonrpc", .str "2.0"), ("id", .num 1 0), ("method", .str "initialize"),
    ("params", .obj [
      ("protocolVersion", .str "2024-11-05"),
      ("capabilities", .obj []),
      ("clientInfo", .obj [("name", .str "test-mcp-client"), ("version", .str "0.1.0")])])]

/-- The `tools/list` request payload (source lines 166-171). -/
def toolsListPayload : Json :=
  .obj [("jsonrpc", .str "2.0"), ("id", .num 2 0), ("method", .str "tools/list"),
    ("params", .obj [])]

/-- The `tools/call get_quote` request payload (source lines 199-209). -/
def getQuotePayload (stock : String) : Json :=
  .obj [("jsonrpc", .str "2.0"), ("id", .num 3 0), ("method", .str "tools/call"),
    ("params", .obj [("name", .str "get_quote"),
      ("arguments", .obj [("stock_code", .str stock)])])]

/-- The `tools/call hk_buy` request payload (source lines 241-253):
price 0.01 and quantity 100 are the deliberate no-fill guard values. -/
def hkBuyPayload (stock : String) : Json :=
  .obj [("jsonrpc", .str "2.0"), ("id", .num 4 0), ("method", .str "tools/call"),
    ("params", .obj [("name", .str "hk_buy"),
      ("arguments", .obj [("stock_code", .str stock),
        ("price", .num 1 (-2)), ("quantity", .num 100 0)])])]

/-- How a run of the script ends: a normal `sys.exit` (with the exit code,
the final counters, the scenarios started, and whether the Test 1 early
abort fired), or an uncaught Python exception (whose interpreter-level
exit status is 1). -/
inductive RunEnd where
  | exited (code passed failed : Nat) (attempted : List Nat) (aborted : Bool)
  | crashed (e : PyErr) (passed failed : Nat) (attempted : List Nat)
deriving DecidableEq

/-- Exit status of the process for a run end; an uncaught exception makes
the interpreter exit with status 1. -/
def exitCodeOf : RunEnd → Nat
  | .exited code _ _ _ _ => code
  | .crashed _ _ _ _ => 1

/-- The failed counter at the end of a run. -/
def failedOf : RunEnd → Nat
  | .exited _ _ f _ _ => f
  | .crashed _ _ f _ => f

/-- The whole script run (source lines 110-283), driven by one
`HttpOutcome` per HTTP call in order: initialize, the initialized
notification, tools/list, get_quote, hk_buy.  Outcomes after an early
exit or crash are unused. -/
def runScript (stock : String) (o1 o2 o3 o4 o5 : HttpOutcome) : RunEnd :=
  let r1 := mcp_post none initPayload o1
  let s1 := r1.2.1
  if r1.2.2.2 == 0 then
    -- fail("无法连接 ..."); sys.exit(1)  (source lines 133-137)
    .exited 1 0 1 [1] true
  else
    let t1 := test1Check r1.2.2.1 r1.2.2.2 s1
    let st1 := stApply ⟨0, 0⟩ t1.1
    match t1.2 with
    | some e => .crashed e st1.passed st1.failed [1]
    | none =>
      let s2 := (mcp_notify s1 "notifications/initialized" o2).2
      let r3 := mcp_post s2 toolsListPayload o3
      let t2 := test2Check r3.2.2.1 r3.2.2.2
      let st2 := stApply st1 t2.1
      match t2.2 with
      | some e => .crashed e st2.passed st2.failed [1, 2]
      | none =>
        let r4 := mcp_post r3.2.1 (getQuotePayload stock) o4
        let t3 := toolCallCheck 3 r4.2.2.1 r4.2.2.2
        let st3 := stApply st2 t3.1
        match t3.2 with
        | some e => .crashed e st3.passed st3.failed [1, 2, 3]
        | none =>
          let r5 := mcp_post r4.2.1 (hkBuyPayload stock) o5
          let t4 := toolCallCheck 4 r5.2.2.1 r5.2.2.2
          let st4 := stApply st3 t4.1
          match t4.2 with
          | some e => .crashed e st4.passed st4.failed [1, 2, 3, 4]
          | none =>
            .exited (if st4.failed > 0 then 1 else 0) st4.passed st4.failed
              [1, 2, 3, 4] false

/-- Whether an event is a pass verdict. -/
def isPassEv : Ev → Bool
  | .pass _ => true
  | _ => false

/-- Whether an event is a fail verdict. -/
def isFailEv : Ev → Bool
  | .fail _ => true
  | _ => false

/-- Number of pass verdicts among a scenario's events. -/
def passCount (evs : List Ev) : Nat := (evs.filter isPassEv).length

/-- Number of fail verdicts among a scenario's events. -/
def failCount (evs : List Ev) : Nat := (evs.filter isFailEv).length

/-! ### Claim-side definitions, for comparison with the source-derived
ones (used only to state refutations and amended claims). -/

/-- Body-decoding policy exactly as the claim states it: when the body
contains `data: `, only the `data: ` lines are consulted and the
whole-body parse is NOT attempted as a fallback.  (The source instead
falls through to the whole-body parse; see `decodeBody`.) -/
def decodeBodyClaim (body : Str) : Option Json :=
  if containsSub dataTag body then findData (pySplitlines body)
  else json_loads body

/-- Well-formedness of a tool-call response under which the amended
claim C3 speaks: absent and falsy bodies are fine; a dict body may carry
a `result` whose `content` items are dicts with a string `text` field
whenever their `type` is `"text"`, or an `error` that is a dict;
truthy non-dict bodies are excluded. -/
def contentItemOk (c : Json) : Bool :=
  match c with
  | .obj kvs =>
    (match jLookup "type" kvs with
     | some (Json.str t) =>
       if t = "text" then
         match jLookup "text" kvs with
         | some (Json.str _) => true
         | _ => false
       else true
     | some _ => true
     | none => true)
  | _ => false

/-- The `result` member is a dict whose `content`, if present, is a list
of well-formed content items. -/
def resultOk (r : Json) : Bool :=
  match r with
  | .obj kvs =>
    (match jLookup "content" kvs with
     | none => true
     | some (Json.arr cs) => cs.all contentItemOk
     | some _ => false)
  | _ => false

/-- Well-formed tool-call response (see `contentItemOk`). -/
def wf3 (resp : Option Json) : Bool :=
  match resp with
  | none => true
  | some j =>
    if pyTruthy j then
      match j with
      | .obj kvs =>
        (match jLookup "result" kvs with
         | some r => resultOk r
         | none =>
           match jLookup "error" kvs with
           | some (Json.obj _) => true
           | some _ => false
           | none => true)
      | _ => false
    else true

/-- Verdict the claim predicts for a tool-call scenario: pass exactly
when the response is a dict containing a `result` member. -/
def claimPass3 (resp : Option Json) : Bool :=
  match resp with
  | some (Json.obj kvs) => (jLookup "result" kvs).isSome
  | _ => false

/-! ### Concrete fixtures: a well-behaved server's responses, used to
evaluate whole runs at specific inputs. -/

/-- A plain-JSON `initialize` response from the expected server. -/
def goodInitBody : Str :=
  "\x7b\"jsonrpc\":\"2.0\",\"id\":1,\"result\":\x7b\"protocolVersion\":\"2024-11-05\",\"serverInfo\":\x7b\"name\":\"qtrade-mcp\",\"version\":\"0.1.0\"\x7d\x7d\x7d".toList

/-- A `tools/list` response carrying the three required tools. -/
def goodToolsBody : Str :=
  "\x7b\"result\":\x7b\"tools\":[\x7b\"name\":\"hk_buy\"\x7d,\x7b\"name\":\"hk_sell\"\x7d,\x7b\"name\":\"get_quote\"\x7d]\x7d\x7d".toList

/-- An SSE-framed `tools/call` response with a text content item. -/
def goodCallBody : Str :=
  "data: \x7b\"result\":\x7b\"content\":[\x7b\"type\":\"text\",\"text\":\"px 1.0\"\x7d]\x7d\x7d\n\n".toList

/-- A `tools/list` response whose single tool descriptor lacks `name`. -/
def noNameToolsBody : Str :=
  "\x7b\"jsonrpc\":\"2.0\",\"id\":2,\"result\":\x7b\"tools\":[\x7b\"description\":\"d\"\x7d]\x7d\x7d".toList

/-- Successful initialize outcome, issuing a session id. -/
def okInit : HttpOutcome := .success (some "sess-123456789abcdef0") goodInitBody 200

/-- The 202 empty-body acknowledgment of a notification. -/
def okNotifAck : HttpOutcome := .httpError 202 false []

/-- Successful tools/list outcome. -/
def okTools : HttpOutcome := .success none goodToolsBody 200

/-- Successful tools/call outcome. -/
def okCall : HttpOutcome := .success none goodCallBody 200

/-! ### A trace of Transport Adapter calls (for the session-persistence
claims): fold `mcp_post` over a list of payload/outcome pairs. -/

/-- The cached session id after a sequence of calls. -/
def sessionAfter (s0 : Option String) (calls : List (Json × HttpOutcome)) :
    Option String :=
  calls.foldl (fun s c => (mcp_post s c.1 c.2).2.1) s0

/-- The requests put on the wire by a sequence of calls. -/
def sentRequests (s0 : Option String) : List (Json × HttpOutcome) → List SentRequest
  | [] => []
  | c :: rest =>
    (mcp_post s0 c.1 c.2).1 :: sentRequests ((mcp_post s0 c.1 c.2).2.1) rest

/-- Invariant: the cached session id, when present, is non-empty (it is
only ever set from a truthy header value). -/
def SessInv (s : Option String) : Prop := ∀ t, s = some t → t.isEmpty = false

/-- A two-call trace used to instantiate the session-persistence claim:
the first response issues session id `abc`, the second carries none. -/
def twoCalls : List (Json × HttpOutcome) :=
  [(initPayload, HttpOutcome.success (some "abc") [] 200),
   (toolsListPayload, HttpOutcome.success none [] 200)]

/-! ### Helper lemmas -/

/-- Binding a successful `Except` computation just applies the
continuation. -/
theorem except_bind_ok {α β : Type} (a : α) (f : α → Except PyErr β) :
    (Except.ok a >>= f) = f a := rfl

/-- The first line produced by `pySplitlines` is a prefix of the input. -/
theorem pySplitlines_head_pre :
    ∀ (s : Str) (l : Str) (ls : List Str), pySplitlines s = l :: ls → ∃ t, s = l ++ t := by
  intro s
  induction s using pySplitlines.induct with
  | case1 => intro l ls h; simp [pySplitlines] at h
  | case2 c hbr =>
    intro l ls h
    simp [pySplitlines, hbr] at h
    exact ⟨[c], by simp [h.1]⟩
  | case3 c hbr =>
    intro l ls h
    simp [pySplitlines, hbr] at h
    exact ⟨[], by simp [h.1]⟩
  | case4 c r2 rest2 hbr hcr ih =>
    intro l ls h
    rw [pySplitlines.eq_3, if_pos hbr, if_pos hcr] at h
    exact ⟨c :: r2 :: rest2, by simp [(List.cons.injEq .. ▸ h).1.symm]⟩
  | case5 c r2 rest2 hbr hcr ih =>
    intro l ls h
    rw [pySplitlines.eq_3, if_pos hbr, if_neg hcr] at h
    exact ⟨c :: r2 :: rest2, by simp [(List.cons.injEq .. ▸ h).1.symm]⟩
  | case6 c r2 rest2 hbr hrec ih =>
    intro l ls h
    rw [pySplitlines.eq_3, if_neg hbr, hrec] at h
    exact ⟨r2 :: rest2, by simp [(List.cons.injEq .. ▸ h).1.symm]⟩
  | case7 c r2 rest2 hbr l0 ls0 hrec ih =>
    intro l ls h
    rw [pySplitlines.eq_3, if_neg hbr, hrec] at h
    obtain ⟨rfl, -⟩ := List.cons.injEq .. ▸ h
    obtain ⟨t, ht⟩ := ih l0 ls0 hrec
    exact ⟨t, by simp [ht]⟩

/-- Every line produced by `pySplitlines` occurs contiguously in the
input. -/
theorem pySplitlines_mem_decomp :
    ∀ (s : Str) (l : Str), l ∈ pySplitlines s → ∃ p t, s = p ++ (l ++ t) := by
  intro s
  induction s using pySplitlines.induct with
  | case1 => intro l h; simp [pySplitlines] at h
  | case2 c hbr =>
    intro l h
    simp [pySplitlines, hbr] at h
    exact ⟨[], [c], by simp [h]⟩
  | case3 c hbr =>
    intro l h
    simp [pySplitlines, hbr] at h
    exact ⟨[], [], by simp [h]⟩
  | case4 c r2 rest2 hbr hcr ih =>
    intro l h
    rw [pySplitlines.eq_3, if_pos hbr, if_pos hcr] at h
    rcases List.mem_cons.mp h with rfl | h2
    · exact ⟨[], c :: r2 :: rest2, by simp⟩
    · obtain ⟨p, t, hp⟩ := ih l h2
      exact ⟨c :: r2 :: p, t, by simp [hp]⟩
  | case5 c r2 rest2 hbr hcr ih =>
    intro l h
    rw [pySplitlines.eq_3, if_pos hbr, if_neg hcr] at h
    rcases List.mem_cons.mp h with rfl | h2
    · exact ⟨[], c :: r2 :: rest2, by simp⟩
    · obtain ⟨p, t, hp⟩ := ih l h2
      exact ⟨c :: p, t, by simp [hp]⟩
  | case6 c r2 rest2 hbr hrec ih =>
    intro l h
    rw [pySplitlines.eq_3, if_neg hbr, hrec] at h
    simp at h
    subst h
    exact ⟨[], r2 :: rest2, by simp⟩
  | case7 c r2 rest2 hbr l0 ls0 hrec ih =>
    intro l h
    rw [pySplitlines.eq_3, if_neg hbr, hrec] at h
    rcases List.mem_cons.mp h with rfl | h2
    · obtain ⟨t, ht⟩ := pySplitlines_head_pre (c :: r2 :: rest2)
        (c :: l0) ls0 (by rw [pySplitlines.eq_3, if_neg hbr, hrec])
      exact ⟨[], t, by simpa using ht⟩
    · obtain ⟨p, t, hp⟩ := ih l (hrec ▸ List.mem_cons.mpr (Or.inr h2))
      exact ⟨c :: p, t, by simp [hp]⟩

/-- A prefix is found by `containsSub`. -/
theorem containsSub_of_pre {n h : Str} (hp : n <+: h) : containsSub n h = true := by
  cases h with
  | nil =>
    obtain ⟨t, ht⟩ := hp
    have : n = [] := by
      cases n with
      | nil => rfl
      | cons a b => simp at ht
    simp [containsSub, this, List.isPrefixOf_iff_prefix]
  | cons c r =>
    show (n.isPrefixOf (c :: r) || containsSub n r) = true
    simp [ List.isPrefixOf_iff_prefix, hp]

/-- A string contains any substring it can be decomposed around. -/
theorem containsSub_of_decomp (n : Str) :
    ∀ (p t : Str), containsSub n (p ++ (n ++ t)) = true := by
  intro p
  induction p with
  | nil => intro t; exact containsSub_of_pre (List.prefix_append n t)
  | cons c p ih =>
    intro t
    show (n.isPrefixOf (c :: (p ++ (n ++ t))) || containsSub n (p ++ (n ++ t))) = true
    simp [ih t]

/-- When no line starts with the `data: ` marker, the scan finds
nothing. -/
theorem findData_eq_none {ls : List Str}
    (h : ∀ l ∈ ls, dataTag.isPrefixOf l = false) : findData ls = none := by
  induction ls with
  | nil => rfl
  | cons l rest ih =>
    have h0 := h l (List.mem_cons_self _ _)
    simp only [findData, h0, Bool.false_eq_true, if_false]
    exact ih (fun x hx => h x (List.mem_cons.mpr (Or.inr hx)))

/-- The decoding of `mcp_post` factors as: first parseable `data: ` line
if any, else the whole-body parse — also when `data: ` is present. -/
theorem decodeBody_eq (body : Str) :
    decodeBody body =
      (match findData (pySplitlines body) with
       | some j => some j
       | none => json_loads body) := by
  unfold decodeBody
  by_cases hc : containsSub dataTag body = true
  · rw [if_pos hc]
  · rw [if_neg hc]
    have hnone : findData (pySplitlines body) = none := by
      apply findData_eq_none
      intro l hl
      by_contra hpre
      have hpre' : dataTag.isPrefixOf l = true := by
        cases hq : dataTag.isPrefixOf l with
        | false => exact absurd hq hpre
        | true => rfl
      obtain ⟨u, hu⟩ := List.isPrefixOf_iff_prefix.mp hpre'
      obtain ⟨p, t, hpt⟩ := pySplitlines_mem_decomp body l hl
      apply hc
      rw [hpt, ← hu]
      have : p ++ (dataTag ++ u ++ t) = p ++ (dataTag ++ (u ++ t)) := by simp
      rw [this]
      exact containsSub_of_decomp dataTag p (u ++ t)
    rw [hnone]

/-- `splitlines` of a break-free string followed by two newlines. -/
theorem pySplitlines_nobreak_twoNl :
    ∀ (xs : Str), (∀ c ∈ xs, isLineBreak c = false) →
      pySplitlines (xs ++ ['\n', '\n']) = [xs, []] := by
  intro xs
  induction xs with
  | nil => intro _; rfl
  | cons c xs ih =>
    intro h
    have hc : isLineBreak c = false := h c (List.mem_cons_self _ _)
    have hrest : ∀ x ∈ xs, isLineBreak x = false :=
      fun x hx => h x (List.mem_cons.mpr (Or.inr hx))
    obtain ⟨r2, rest2, hx⟩ : ∃ r2 rest2, xs ++ ['\n', '\n'] = r2 :: rest2 := by
      cases xs with
      | nil => exact ⟨'\n', ['\n'], rfl⟩
      | cons d xs' => exact ⟨d, xs' ++ ['\n', '\n'], rfl⟩
    show pySplitlines (c :: (xs ++ ['\n', '\n'])) = [c :: xs, []]
    rw [hx, pySplitlines.eq_3, hc]
    simp only [Bool.false_eq_true, if_false]
    rw [← hx, ih hrest]

/-- `splitlines` of a nonempty break-free string is that one line. -/
theorem pySplitlines_nobreak_single :
    ∀ (xs : Str), xs ≠ [] → (∀ c ∈ xs, isLineBreak c = false) →
      pySplitlines xs = [xs] := by
  intro xs
  induction xs with
  | nil => intro h; exact absurd rfl h
  | cons c xs ih =>
    intro _ h
    have hc : isLineBreak c = false := h c (List.mem_cons_self _ _)
    have hrest : ∀ x ∈ xs, isLineBreak x = false :=
      fun x hx => h x (List.mem_cons.mpr (Or.inr hx))
    cases xs with
    | nil => simp [pySplitlines, hc]
    | cons d xs' =>
      rw [pySplitlines.eq_3, hc]
      simp only [Bool.false_eq_true, if_false]
      rw [ih (by simp) hrest]

/-- `jLookup` succeeds exactly when `any` finds the key (the form Python's
`in` test takes in the embedding). -/
theorem jLookup_isSome_any (k : String) (kvs : List (String × Json)) :
    (jLookup k kvs).isSome = kvs.any (fun kv => kv.1 == k) := by
  induction kvs with
  | nil => rfl
  | cons kv rest ih =>
    obtain ⟨k', v⟩ := kv
    by_cases hk : k' = k
    · simp [jLookup, hk]
    · simp [jLookup, hk, ih]

/-- The per-tool info loop of Test 2 emits no verdicts. -/
theorem toolInfoLines_counts (ts : List Json) :
    passCount (toolInfoLines ts).1 = 0 ∧ failCount (toolInfoLines ts).1 = 0 := by
  induction ts with
  | nil => exact ⟨rfl, rfl⟩
  | cons t rest ih =>
    simp only [toolInfoLines]
    cases toolInfoLine t with
    | ok m =>
      simp only [passCount, failCount, List.filter_cons, isPassEv, isFailEv] at *
      exact ih
    | error e => exact ⟨rfl, rfl⟩

/-- A list of info events contributes no verdicts. -/
theorem noteMap_counts {α : Type} (L : List α) (f : α → Msg) :
    passCount (L.map (fun x => Ev.note (f x))) = 0 ∧
    failCount (L.map (fun x => Ev.note (f x))) = 0 := by
  induction L with
  | nil => exact ⟨rfl, rfl⟩
  | cons x L ih =>
    simp [passCount, failCount, List.filter_cons, isPassEv, isFailEv]

/-- On a list of well-formed content items the text comprehension
succeeds and yields only strings. -/
theorem textsOf_all_ok (cs : List Json) (h : cs.all contentItemOk = true) :
    ∀ acc : List Json, (∀ a ∈ acc, ∃ s, a = Json.str s) →
      ∃ res, cs.foldlM textsStep acc = .ok res ∧ ∀ a ∈ res, ∃ s, a = Json.str s := by
  induction cs with
  | nil => intro acc hacc; exact ⟨acc, rfl, hacc⟩
  | cons c cs ih =>
    intro acc hacc
    rw [List.all_cons, Bool.and_eq_true] at h
    obtain ⟨hc, hcs⟩ := h
    obtain ⟨acc', hstep, hacc'⟩ : ∃ acc', textsStep acc c = .ok acc' ∧
        ∀ a ∈ acc', ∃ s, a = Json.str s := by
      cases c with
      | obj kvs =>
        cases hty : jLookup "type" kvs with
        | none => exact ⟨acc,
            by simp [textsStep, jGet, hty, pyEqStr, except_bind_ok, pure, Except.pure], hacc⟩
        | some tv =>
          cases tv with
          | str t =>
            by_cases ht : t = "text"
            · subst ht
              simp [contentItemOk, hty] at hc
              obtain ⟨s, hs⟩ : ∃ s, jLookup "text" kvs = some (Json.str s) := by
                cases htx : jLookup "text" kvs with
                | none => rw [htx] at hc; cases hc
                | some xv =>
                  cases xv <;> rw [htx] at hc <;> first
                    | exact ⟨_, rfl⟩
                    | cases hc
              refine ⟨acc ++ [Json.str s], ?_, ?_⟩
              · simp [textsStep, jGet, hty, pyEqStr, pyIndex, hs, except_bind_ok,
                  pure, Except.pure]
              · intro a ha
                rcases List.mem_append.mp ha with ha | ha
                · exact hacc a ha
                · simp at ha
                  exact ⟨s, ha⟩
            · refine ⟨acc, ?_, hacc⟩
              have : pyEqStr "text" (Json.str t) = false := by
                simp [pyEqStr]
                exact fun hh => ht hh.symm
              simp [textsStep, jGet, hty, this, except_bind_ok, pure, Except.pure]
          | null => exact ⟨acc,
              by simp [textsStep, jGet, hty, pyEqStr, except_bind_ok, pure, Except.pure], hacc⟩
          | bool b => exact ⟨acc,
              by simp [textsStep, jGet, hty, pyEqStr, except_bind_ok, pure, Except.pure], hacc⟩
          | num m e => exact ⟨acc,
              by simp [textsStep, jGet, hty, pyEqStr, except_bind_ok, pure, Except.pure], hacc⟩
          | arr xs => exact ⟨acc,
              by simp [textsStep, jGet, hty, pyEqStr, except_bind_ok, pure, Except.pure], hacc⟩
          | obj kvs2 => exact ⟨acc,
              by simp [textsStep, jGet, hty, pyEqStr, except_bind_ok, pure, Except.pure], hacc⟩
      | null => cases hc
      | bool b => cases hc
      | num m e => cases hc
      | str s => cases hc
      | arr xs => cases hc
    rw [List.foldlM_cons, hstep, except_bind_ok]
    exact ih hcs acc' hacc'

/-- Joining a list of string values succeeds. -/
theorem pyJoinNL_ok (xs : List Json) (h : ∀ a ∈ xs, ∃ s, a = Json.str s) :
    ∃ t, pyJoinNL xs = .ok t := by
  suffices hs : ∃ ss, pyStrList xs = Except.ok ss by
    obtain ⟨ss, hss⟩ := hs
    exact ⟨String.intercalate "\n" ss, by rw [pyJoinNL, hss]; rfl⟩
  induction xs with
  | nil => exact ⟨[], rfl⟩
  | cons x xs ih =>
    obtain ⟨s, rfl⟩ := h x (List.mem_cons_self _ _)
    obtain ⟨ss, hss⟩ := ih (fun a ha => h a (List.mem_cons.mpr (Or.inr ha)))
    exact ⟨s :: ss, by rw [pyStrList, hss]; rfl⟩

/-- On a dict response whose `result` is well-formed, the tool-call
prelude completes without an exception. -/
theorem toolCallCore_ok (kvs : List (String × Json)) (r : Json)
    (hres : jLookup "result" kvs = some r) (hok : resultOk r = true) :
    ∃ b t, toolCallCore (some (Json.obj kvs)) = .ok (b, t) := by
  obtain ⟨rkvs, rfl⟩ : ∃ rkvs, r = Json.obj rkvs := by
    cases r with
    | obj rkvs => exact ⟨rkvs, rfl⟩
    | null => simp [resultOk] at hok
    | bool b => simp [resultOk] at hok
    | num m e => simp [resultOk] at hok
    | str s => simp [resultOk] at hok
    | arr xs => simp [resultOk] at hok
  have hstep1 : toolCallCore (some (Json.obj kvs)) =
      (pyIter ((jLookup "content" rkvs).getD (Json.arr [])) >>= fun content =>
        textsOf content >>= fun texts =>
        pyJoinNL texts >>= fun text =>
        pure (pyTruthy ((jLookup "isError" rkvs).getD (Json.bool false)), text)) := by
    simp [toolCallCore, pyIndex, hres, jGet, except_bind_ok]
  cases hcont : jLookup "content" rkvs with
  | none =>
    refine ⟨pyTruthy ((jLookup "isError" rkvs).getD (Json.bool false)), "", ?_⟩
    rw [hstep1, hcont]
    rfl
  | some cv =>
    have hcv : ∃ cs, cv = Json.arr cs ∧ cs.all contentItemOk = true := by
      cases cv with
      | arr cs =>
        refine ⟨cs, rfl, ?_⟩
        simpa [resultOk, hcont] using hok
      | null => simp [resultOk, hcont] at hok
      | bool b => simp [resultOk, hcont] at hok
      | num m e => simp [resultOk, hcont] at hok
      | str s => simp [resultOk, hcont] at hok
      | obj kv2 => simp [resultOk, hcont] at hok
    obtain ⟨cs, rfl, hall⟩ := hcv
    obtain ⟨res, hres2, hstrs⟩ := textsOf_all_ok cs hall [] (by intro a ha; cases ha)
    obtain ⟨t, ht⟩ := pyJoinNL_ok res hstrs
    refine ⟨pyTruthy ((jLookup "isError" rkvs).getD (Json.bool false)), t, ?_⟩
    rw [hstep1, hcont]
    show (pyIter (Json.arr cs) >>= fun content => _) = _
    rw [show pyIter (Json.arr cs) = .ok cs from rfl, except_bind_ok]
    rw [show textsOf cs = List.foldlM textsStep [] cs from rfl] at *
    rw [hres2, except_bind_ok, ht, except_bind_ok]
    rfl

/-- The empty cache satisfies the non-empty-session invariant. -/
theorem sessInv_none : SessInv none := by intro t h; cases h

/-- The session-cache update preserves the invariant. -/
theorem sessInv_update (s : Option String) (sid : Option String) (h : SessInv s) :
    SessInv (sessionUpdate s sid) := by
  cases sid with
  | none => exact h
  | some x =>
    simp only [sessionUpdate]
    by_cases hx : x.isEmpty
    · simpa [hx] using h
    · simp only [hx, if_false]
      intro t ht
      cases ht
      exact Bool.of_not_eq_true hx

/-- `mcp_post` preserves the invariant whatever the outcome. -/
theorem sessInv_post (s : Option String) (p : Json) (o : HttpOutcome)
    (h : SessInv s) : SessInv ((mcp_post s p o).2.1) := by
  cases o with
  | success sid body status => exact sessInv_update s sid h
  | httpError code hb body => exact h
  | urlError => exact h

/-- The request `mcp_post` sends does not depend on the outcome. -/
theorem mcp_post_req (s : Option String) (p : Json) (o : HttpOutcome) :
    (mcp_post s p o).1 = ⟨p, reqHeaders s⟩ := by
  cases o <;> rfl

/-- Core induction for the call trace: a cached session id is non-empty,
stamps the next request, and evolves by the cache-update rule. -/
theorem runCalls_ind (calls : List (Json × HttpOutcome)) :
    ∀ (s0 : Option String), SessInv s0 →
      ∀ (i : Nat) (p : Json) (o : HttpOutcome) (s : String),
        sessionAfter s0 (calls.take i) = some s →
        calls.get? i = some (p, o) →
        s.isEmpty = false ∧
        (sentRequests s0 calls).get? i = some ⟨p, reqHeaders (some s)⟩ ∧
        sessionAfter s0 (calls.take (i + 1)) = (mcp_post (some s) p o).2.1 := by
  induction calls with
  | nil => intro s0 _ i p o s _ hg; simp at hg
  | cons hd rest ih =>
    intro s0 hinv i p o s hsess hg
    cases i with
    | zero =>
      have hs0 : s0 = some s := hsess
      obtain ⟨rfl, rfl⟩ : hd.1 = p ∧ hd.2 = o := by
        have : hd = (p, o) := by simpa using hg
        rw [this]
        exact ⟨rfl, rfl⟩
      refine ⟨hinv s hs0, ?_, ?_⟩
      · show some (mcp_post s0 hd.1 hd.2).1 = _
        rw [mcp_post_req, hs0]
      · show sessionAfter s0 [hd] = _
        show (mcp_post s0 hd.1 hd.2).2.1 = _
        rw [hs0]
    | succ n =>
      have hstep : sessionAfter s0 ((hd :: rest).take (n + 1)) =
          sessionAfter ((mcp_post s0 hd.1 hd.2).2.1) (rest.take n) := by
        simp [sessionAfter, List.take_succ_cons]
      have hinv' : SessInv ((mcp_post s0 hd.1 hd.2).2.1) := sessInv_post _ _ _ hinv
      have hg' : rest.get? n = some (p, o) := hg
      obtain ⟨h1, h2, h3⟩ := ih ((mcp_post s0 hd.1 hd.2).2.1) hinv' n p o s
        (by rw [← hstep]; exact hsess) hg'
      refine ⟨h1, h2, ?_⟩
      have hstep2 : sessionAfter s0 ((hd :: rest).take (n + 2)) =
          sessionAfter ((mcp_post s0 hd.1 hd.2).2.1) (rest.take (n + 1)) := by
        simp [sessionAfter, List.take_succ_cons]
      rw [hstep2]
      exact h3

/-- Every run of the script ends in one of three shapes: the Test 1
abort, an uncaught exception, or the final counter-driven `sys.exit`. -/
theorem runScript_shape (stock : String) (o1 o2 o3 o4 o5 : HttpOutcome) :
    runScript stock o1 o2 o3 o4 o5 = .exited 1 0 1 [1] true ∨
    (∃ e p f att, runScript stock o1 o2 o3 o4 o5 = .crashed e p f att) ∨
    (∃ p f, runScript stock o1 o2 o3 o4 o5 =
      .exited (if f > 0 then 1 else 0) p f [1, 2, 3, 4] false) := by
  unfold runScript
  dsimp only
  split
  · left; rfl
  · split
    · right; left; exact ⟨_, _, _, _, rfl⟩
    · split
      · right; left; exact ⟨_, _, _, _, rfl⟩
      · split
        · right; left; exact ⟨_, _, _, _, rfl⟩
        · split
          · right; left; exact ⟨_, _, _, _, rfl⟩
          · right; right; exact ⟨_, _, rfl⟩

/-! ### Claims -/

/-- C1, counterexample: in a run where scenario 3's call is a connection
failure — the call returns `(absent, 0)` exactly as the claim says — the
process does NOT exit immediately: scenario 4 is still attempted
(`attempted = [1, 2, 3, 4]`, `aborted = false`), and the exit code 1
comes from the ordinary failed-counter path. -/
theorem c1_counterexample :
    (mcp_post (some "sess-123456789abcdef0") (getQuotePayload "00700")
        HttpOutcome.urlError).2.2 = (none, 0) ∧
    runScript "00700" okInit okNotifAck okTools HttpOutcome.urlError okCall =
      RunEnd.exited 1 3 1 [1, 2, 3, 4] false :=
  ⟨rfl, rfl⟩

/-- C1, amended: a connection failure or timeout yields `(absent, 0)` on
every call; status 0 aborts the run (exit 1, only scenario 1 attempted)
only when it occurs on scenario 1's initialize call; a connection failure
on a later scenario's call records that scenario's failure and the run
continues through the remaining scenarios, exiting 1 via the
failed-counter path. -/
theorem c1_amended_status0_scope :
    (∀ (session : Option String) (payload : Json),
      (mcp_post session payload HttpOutcome.urlError).2.2 = (none, 0)) ∧
    (∀ (stock : String) (o2 o3 o4 o5 : HttpOutcome),
      runScript stock HttpOutcome.urlError o2 o3 o4 o5 = RunEnd.exited 1 0 1 [1] true) ∧
    runScript "00700" okInit okNotifAck okTools HttpOutcome.urlError okCall =
      RunEnd.exited 1 3 1 [1, 2, 3, 4] false :=
  ⟨fun _ _ => rfl, fun _ _ _ _ _ => rfl, rfl⟩

/-- C2: the claim is right and the code is wrong.  On a `tools/list`
response whose tool descriptor lacks `name`, the set comprehension raises
an uncaught `KeyError("name")`: the run crashes after scenario 2 started
(scenarios 3 and 4 never run) instead of recording a fail verdict.
Likewise a tool-call content item of type `text` without a `text` field
raises `KeyError("text")` before any verdict. -/
theorem c2_keyerror_crash :
    runScript "00700" okInit okNotifAck (HttpOutcome.success none noNameToolsBody 200)
        okCall okCall =
      RunEnd.crashed (PyErr.keyError "name") 1 0 [1, 2] ∧
    toolCallCheck 4 (some (Json.obj [("result", Json.obj [("content",
        Json.arr [Json.obj [("type", Json.str "text")]])])])) 200 =
      ([], some (PyErr.keyError "text")) :=
  ⟨rfl, rfl⟩

/-- C3, counterexample: a response that does contain a `result` member —
so the claim predicts a pass verdict — instead raises `KeyError("text")`
(its content item has type `text` but no `text` field) and records no
verdict at all. -/
theorem c3_counterexample :
    toolCallCheck 3 (some (Json.obj [("result", Json.obj [("content",
        Json.arr [Json.obj [("type", Json.str "text")]])])])) 200 =
      ([], some (PyErr.keyError "text")) ∧
    claimPass3 (some (Json.obj [("result", Json.obj [("content",
        Json.arr [Json.obj [("type", Json.str "text")]])])])) = true :=
  ⟨rfl, rfl⟩

/-- C3, amended: for scenarios 3 and 4, over well-formed responses
(`wf3`): the scenario records exactly one pass verdict iff the response
is a dict containing `result` — regardless of `isError` — and exactly one
fail verdict otherwise; when the failure is a JSON-RPC error envelope,
the fail verdict is followed by an info line echoing the error's `code`
and `message`; and no exception escapes. -/
theorem c3_amended_verdicts (tag : Nat) (resp : Option Json) (status : Nat)
    (h : wf3 resp = true) :
    (toolCallCheck tag resp status).2 = none ∧
    (claimPass3 resp = true → passCount (toolCallCheck tag resp status).1 = 1 ∧
       failCount (toolCallCheck tag resp status).1 = 0) ∧
    (claimPass3 resp = false → passCount (toolCallCheck tag resp status).1 = 0 ∧
       failCount (toolCallCheck tag resp status).1 = 1) ∧
    (∀ kvs errv, resp = some (Json.obj kvs) → jLookup "result" kvs = none →
       jLookup "error" kvs = some errv →
       ∃ ekvs, errv = Json.obj ekvs ∧
         (toolCallCheck tag resp status).1 =
           [Ev.fail (.callRpcError tag),
            Ev.note (.rpcErrLine tag ((jLookup "code" ekvs).getD .null)
              ((jLookup "message" ekvs).getD .null))]) := by
  have habn : ∀ (hres : respHasKey resp "result" = .ok false)
      (herr : respHasKey resp "error" = .ok false) (hcp : claimPass3 resp = false)
      (hnores : ∀ kvs errv, resp = some (Json.obj kvs) → jLookup "result" kvs = none →
        jLookup "error" kvs = some errv → False),
      (toolCallCheck tag resp status).2 = none ∧
      (claimPass3 resp = true → passCount (toolCallCheck tag resp status).1 = 1 ∧
         failCount (toolCallCheck tag resp status).1 = 0) ∧
      (claimPass3 resp = false → passCount (toolCallCheck tag resp status).1 = 0 ∧
         failCount (toolCallCheck tag resp status).1 = 1) ∧
      (∀ kvs errv, resp = some (Json.obj kvs) → jLookup "result" kvs = none →
         jLookup "error" kvs = some errv →
         ∃ ekvs, errv = Json.obj ekvs ∧
           (toolCallCheck tag resp status).1 =
             [Ev.fail (.callRpcError tag),
              Ev.note (.rpcErrLine tag ((jLookup "code" ekvs).getD .null)
                ((jLookup "message" ekvs).getD .null))]) := by
    intro hres herr hcp hnores
    have hval : toolCallCheck tag resp status =
        ([Ev.fail (.callAbnormal tag status resp)], none) := by
      simp [toolCallCheck, hres, herr]
    rw [hval]
    refine ⟨rfl, ?_, ?_, ?_⟩
    · intro hcp2; rw [hcp] at hcp2; cases hcp2
    · intro _; exact ⟨rfl, rfl⟩
    · intro kvs errv heq h1 h2; exact (hnores kvs errv heq h1 h2).elim
  cases resp with
  | none => exact habn rfl rfl rfl (by intro kvs errv heq; cases heq)
  | some j =>
    cases j with
    | null => exact habn rfl rfl rfl (by intro kvs errv heq; cases heq)
    | bool b =>
      cases b with
      | false => exact habn rfl rfl rfl (by intro kvs errv heq; cases heq)
      | true => simp [wf3, pyTruthy] at h
    | num m e =>
      by_cases hm : m = 0
      · subst hm
        exact habn rfl rfl rfl (by intro kvs errv heq; cases heq)
      · have ht : pyTruthy (Json.num m e) = true := by simp [pyTruthy, hm]
        simp [wf3, ht] at h
    | str s =>
      by_cases hs : s.isEmpty
      · have htr : pyTruthy (Json.str s) = false := by simp [pyTruthy, hs]
        exact habn (by simp [respHasKey, htr]) (by simp [respHasKey, htr]) rfl
          (by intro kvs errv heq; cases heq)
      · have ht : pyTruthy (Json.str s) = true := by simp [pyTruthy, hs]
        simp [wf3, ht] at h
    | arr xs =>
      cases xs with
      | nil => exact habn rfl rfl rfl (by intro kvs errv heq; cases heq)
      | cons a as => simp [wf3, pyTruthy] at h
    | obj kvs =>
      cases kvs with
      | nil =>
        refine habn rfl rfl rfl ?_
        intro kvs' errv heq h1 h2
        obtain rfl : ([] : List (String × Json)) = kvs' := by
          injection heq with heq2; injection heq2
        cases h2
      | cons kv0 kvrest =>
        cases hres : jLookup "result" (kv0 :: kvrest) with
        | some r =>
          have hany : (kv0 :: kvrest).any (fun kv => kv.1 == "result") = true := by
            rw [← jLookup_isSome_any, hres]; rfl
          have hhas : respHasKey (some (Json.obj (kv0 :: kvrest))) "result" = .ok true := by
            simp [respHasKey, pyTruthy, pyInStr, hany]
          have hok : resultOk r = true := by
            have h' := h
            simp [wf3, pyTruthy, hres] at h'
            exact h'
          obtain ⟨b, t, hcore⟩ := toolCallCore_ok _ r hres hok
          have hval : toolCallCheck tag (some (Json.obj (kv0 :: kvrest))) status =
              (Ev.pass (.callDone tag b) ::
                (pySplitlines t.toList).map
                  (fun l => Ev.note (.textLine tag (String.mk l))), none) := by
            simp [toolCallCheck, hhas, hcore]
          have hcp : claimPass3 (some (Json.obj (kv0 :: kvrest))) = true := by
            simp [claimPass3, hres]
          rw [hval]
          have hnotes := noteMap_counts (pySplitlines t.toList)
            (fun l => Msg.textLine tag (String.mk l))
          refine ⟨rfl, ?_, ?_, ?_⟩
          · intro _
            have h1 := hnotes.1
            have h2 := hnotes.2
            simp only [passCount, failCount, List.filter_cons, isPassEv, isFailEv] at h1 h2 ⊢
            simp [h1, h2]
            exact ⟨fun a _ => rfl, fun a _ => rfl⟩
          · intro hcp2; rw [hcp] at hcp2; cases hcp2
          · intro kvs' errv heq h1 h2
            obtain rfl : kv0 :: kvrest = kvs' := by
              injection heq with heq2; injection heq2
            rw [hres] at h1; cases h1
        | none =>
          have hany : (kv0 :: kvrest).any (fun kv => kv.1 == "result") = false := by
            rw [← jLookup_isSome_any, hres]; rfl
          have hhas : respHasKey (some (Json.obj (kv0 :: kvrest))) "result" = .ok false := by
            simp [respHasKey, pyTruthy, pyInStr, hany]
          cases herr : jLookup "error" (kv0 :: kvrest) with
          | some errv =>
            obtain ⟨ekvs, rfl⟩ : ∃ ekvs, errv = Json.obj ekvs := by
              have h' := h
              simp [wf3, pyTruthy, hres, herr] at h'
              cases errv with
              | obj ekvs => exact ⟨ekvs, rfl⟩
              | null => cases h'
              | bool b => cases h'
              | num m e => cases h'
              | str s => cases h'
              | arr xs => cases h'
            have hanyE : (kv0 :: kvrest).any (fun kv => kv.1 == "error") = true := by
              rw [← jLookup_isSome_any, herr]; rfl
            have hhasE : respHasKey (some (Json.obj (kv0 :: kvrest))) "error" = .ok true := by
              simp [respHasKey, pyTruthy, pyInStr, hanyE]
            have hcoreE : rpcErrCore (some (Json.obj (kv0 :: kvrest))) =
                .ok ((jLookup "code" ekvs).getD .null,
                  (jLookup "message" ekvs).getD .null) := by
              simp [rpcErrCore, pyIndex, herr, jGet, except_bind_ok, pure, Except.pure]
            have hval : toolCallCheck tag (some (Json.obj (kv0 :: kvrest))) status =
                ([Ev.fail (.callRpcError tag),
                  Ev.note (.rpcErrLine tag ((jLookup "code" ekvs).getD .null)
                    ((jLookup "message" ekvs).getD .null))], none) := by
              simp [toolCallCheck, hhas, hhasE, hcoreE]
            have hcp : claimPass3 (some (Json.obj (kv0 :: kvrest))) = false := by
              simp [claimPass3, hres]
            rw [hval]
            refine ⟨rfl, ?_, ?_, ?_⟩
            · intro hcp2; rw [hcp] at hcp2; cases hcp2
            · intro _; exact ⟨rfl, rfl⟩
            · intro kvs' errv' heq h1 h2
              obtain rfl : kv0 :: kvrest = kvs' := by
                injection heq with heq2; injection heq2
              rw [herr] at h2
              obtain rfl : Json.obj ekvs = errv' := by injection h2
              exact ⟨ekvs, rfl, rfl⟩
          | none =>
            have hanyE : (kv0 :: kvrest).any (fun kv => kv.1 == "error") = false := by
              rw [← jLookup_isSome_any, herr]; rfl
            have hhasE : respHasKey (some (Json.obj (kv0 :: kvrest))) "error" = .ok false := by
              simp [respHasKey, pyTruthy, pyInStr, hanyE]
            refine habn hhas hhasE (by simp [claimPass3, hres]) ?_
            intro kvs' errv heq h1 h2
            obtain rfl : kv0 :: kvrest = kvs' := by
              injection heq with heq2; injection heq2
            rw [herr] at h2; cases h2

/-- C3, witness at a concrete input: an `isError`-flagged result with a
well-formed text content item records exactly one pass verdict and no
fail verdict. -/
theorem c3_witness :
    passCount (toolCallCheck 3 (some (Json.obj [("result", Json.obj
      [("isError", Json.bool true), ("content", Json.arr
        [Json.obj [("type", Json.str "text"), ("text", Json.str "boom")]])])])) 200).1 = 1 ∧
    failCount (toolCallCheck 3 (some (Json.obj [("result", Json.obj
      [("isError", Json.bool true), ("content", Json.arr
        [Json.obj [("type", Json.str "text"), ("text", Json.str "boom")]])])])) 200).1 = 0 :=
  (c3_amended_verdicts 3 (some (Json.obj [("result", Json.obj
      [("isError", Json.bool true), ("content", Json.arr
        [Json.obj [("type", Json.str "text"), ("text", Json.str "boom")]])])])) 200
    (by rfl)).2.1 (by rfl)

/-- C4: on a `tools/list` result whose descriptors all carry a `name`
(hypothesis `toolNamesOf ts = ok names`), scenario 2 records a pass
verdict (and no fail) iff the required set is a subset of the returned
name set, and otherwise records exactly the fail verdict naming the
missing tools — membership in the reported missing set holds exactly for
required tools absent from the returned names. -/
theorem c4_superset_verdict (ts names : List Json) (status : Nat)
    (hnames : toolNamesOf ts = .ok names) :
    (expectedTools.all (fun e => names.any (pyEqStr e)) = true →
       passCount (test2Check
         (some (Json.obj [("result", Json.obj [("tools", Json.arr ts)])])) status).1 = 1 ∧
       failCount (test2Check
         (some (Json.obj [("result", Json.obj [("tools", Json.arr ts)])])) status).1 = 0) ∧
    (expectedTools.all (fun e => names.any (pyEqStr e)) = false →
       test2Check (some (Json.obj [("result", Json.obj [("tools", Json.arr ts)])])) status =
         ([Ev.fail (.toolsMissing (expectedTools.filter (fun e => !(names.any (pyEqStr e))))),
           Ev.note (.toolsActual names)], none) ∧
       ∀ x, x ∈ expectedTools.filter (fun e => !(names.any (pyEqStr e))) ↔
         (x ∈ expectedTools ∧ names.any (pyEqStr x) = false)) := by
  have hhas : respHasKey (some (Json.obj [("result", Json.obj
      [("tools", Json.arr ts)])])) "result" = .ok true := rfl
  have hcore : test2Core (some (Json.obj [("result", Json.obj [("tools", Json.arr ts)])])) =
      toolNamesOf ts >>= fun names => pure (ts, names) := rfl
  constructor
  · intro hsub
    simp only [test2Check, hhas, hcore, hnames, except_bind_ok]
    rw [show (pure (ts, names) : Except PyErr (List Json × List Json)) =
      Except.ok (ts, names) from rfl]
    dsimp only
    rw [if_pos hsub]
    have h1 := (toolInfoLines_counts ts).1
    have h2 := (toolInfoLines_counts ts).2
    simp only [passCount, failCount] at h1 h2 ⊢
    refine ⟨?_, ?_⟩ <;> simp [List.filter_cons, isPassEv, isFailEv, h1, h2]
  · intro hsub
    simp only [test2Check, hhas, hcore, hnames, except_bind_ok]
    rw [show (pure (ts, names) : Except PyErr (List Json × List Json)) =
      Except.ok (ts, names) from rfl]
    dsimp only
    rw [if_neg (by simp [hsub])]
    refine ⟨rfl, ?_⟩
    intro x
    simp [List.mem_filter]

/-- C4, witness at the claim's own example: a server returning only
`hk_buy` and `get_quote` fails scenario 2 naming exactly `hk_sell`. -/
theorem c4_witness :
    test2Check (some (Json.obj [("result", Json.obj [("tools", Json.arr
        [Json.obj [("name", Json.str "hk_buy")],
         Json.obj [("name", Json.str "get_quote")]])])])) 200 =
      ([Ev.fail (Msg.toolsMissing ["hk_sell"]),
        Ev.note (Msg.toolsActual [Json.str "hk_buy", Json.str "get_quote"])], none) :=
  ((c4_superset_verdict
      [Json.obj [("name", Json.str "hk_buy")], Json.obj [("name", Json.str "get_quote")]]
      [Json.str "hk_buy", Json.str "get_quote"] 200 rfl).2 (by rfl)).1

/-- C5: SSE framing round-trip.  For any serialized JSON object `v` (it
parses, contains no line breaks, and starts with a brace), decoding the
SSE-framed body `data: v\n\n` and decoding the plain body `v` both yield
exactly the parse of `v`. -/
theorem c5_sse_roundtrip (v : Str) (j : Json)
    (hv : json_loads v = some j)
    (hnb : ∀ c ∈ v, isLineBreak c = false)
    (hbrace : v.head? = some '\x7b') :
    decodeBody (dataTag ++ v ++ ['\n', '\n']) = some j ∧ decodeBody v = some j := by
  obtain ⟨v', rfl⟩ : ∃ v', v = '\x7b' :: v' := by
    cases v with
    | nil => simp at hbrace
    | cons a b =>
      simp at hbrace
      exact ⟨b, by rw [hbrace]⟩
  have hDataNb : ∀ c ∈ dataTag, isLineBreak c = false := by decide
  have hAllNb : ∀ c ∈ dataTag ++ ('\x7b' :: v'), isLineBreak c = false := by
    intro c hc
    rcases List.mem_append.mp hc with h | h
    · exact hDataNb c h
    · exact hnb c h
  constructor
  · have hcont : containsSub dataTag (dataTag ++ ('\x7b' :: v') ++ ['\n', '\n']) = true := by
      have := containsSub_of_decomp dataTag [] (('\x7b' :: v') ++ ['\n', '\n'])
      simpa using this
    have hsplit : pySplitlines (dataTag ++ ('\x7b' :: v') ++ ['\n', '\n']) =
        [dataTag ++ ('\x7b' :: v'), []] := by
      have := pySplitlines_nobreak_twoNl (dataTag ++ ('\x7b' :: v')) hAllNb
      simpa using this
    have hpre : dataTag.isPrefixOf (dataTag ++ ('\x7b' :: v')) = true :=
      List.isPrefixOf_iff_prefix.mpr (List.prefix_append _ _)
    unfold decodeBody
    rw [hcont, if_pos rfl, hsplit]
    simp only [findData, hpre, if_pos, List.drop_left, hv]
  · by_cases hc : containsSub dataTag ('\x7b' :: v') = true
    · have hsplit : pySplitlines ('\x7b' :: v') = ['\x7b' :: v'] :=
        pySplitlines_nobreak_single _ (by simp) hnb
      have hpre : dataTag.isPrefixOf ('\x7b' :: v') = false := by
        simp [dataTag, List.isPrefixOf]
      unfold decodeBody
      rw [hc, if_pos rfl, hsplit]
      simp only [findData, hpre, Bool.false_eq_true, if_false, hv]
    · unfold decodeBody
      rw [if_neg hc]
      exact hv

/-- C5, witness at the claim's own body: the SSE-framed and plain forms
of the initialize-style response decode to the same object. -/
theorem c5_witness :
    decodeBody (dataTag ++
        "\x7b\"jsonrpc\":\"2.0\",\"id\":1,\"result\":\x7b\x7d\x7d".toList ++ ['\n', '\n']) =
      some (Json.obj [("jsonrpc", Json.str "2.0"), ("id", Json.num 1 0),
        ("result", Json.obj [])]) ∧
    decodeBody "\x7b\"jsonrpc\":\"2.0\",\"id\":1,\"result\":\x7b\x7d\x7d".toList =
      some (Json.obj [("jsonrpc", Json.str "2.0"), ("id", Json.num 1 0),
        ("result", Json.obj [])]) :=
  c5_sse_roundtrip "\x7b\"jsonrpc\":\"2.0\",\"id\":1,\"result\":\x7b\x7d\x7d".toList
    (Json.obj [("jsonrpc", Json.str "2.0"), ("id", Json.num 1 0), ("result", Json.obj [])])
    (by rfl) (by decide) (by rfl)

/-- C6, counterexample: the body is the plain JSON object
`\x7b"x": "data: "\x7d`, which contains the substring `data: ` but has no
line starting with it.  Under the claim's stated policy the parse would
be absent; the code's whole-body fallback parses it. -/
theorem c6_counterexample :
    decodeBody "\x7b\"x\": \"data: \"\x7d".toList =
      some (Json.obj [("x", Json.str "data: ")]) ∧
    decodeBodyClaim "\x7b\"x\": \"data: \"\x7d".toList = none ∧
    containsSub dataTag "\x7b\"x\": \"data: \"\x7d".toList = true :=
  ⟨rfl, rfl, rfl⟩

/-- C6, amended: the decoding policy is: the first `data: ` line whose
remainder parses (unparseable `data: ` lines skipped); when no such line
exists — including when the body does contain `data: ` — the entire body
is parsed as JSON; absent if neither yields JSON (the status is returned
either way by `mcp_post`). -/
theorem c6_amended_decode_policy (body : Str) :
    decodeBody body =
      (match findData (pySplitlines body) with
       | some j => some j
       | none => json_loads body) :=
  decodeBody_eq body

/-- C7: session persistence.  Once the cache holds `s` before call `i`
of a trace starting from no session, `s` is non-empty, request `i` as
actually sent carries the header `Mcp-Session-Id: s`, the cache after
call `i` still holds `s` unless that call's response carries a non-empty
session header `s'` (in which case it becomes `s'` — last writer wins),
and notifications go through exactly the same `mcp_post` path. -/
theorem c7_session_persistence (calls : List (Json × HttpOutcome)) (i : Nat)
    (p : Json) (o : HttpOutcome) (s : String)
    (hsess : sessionAfter none (calls.take i) = some s)
    (hcall : calls.get? i = some (p, o)) :
    s.isEmpty = false ∧
    ("Mcp-Session-Id", s) ∈ reqHeaders (some s) ∧
    (sentRequests none calls).get? i = some ⟨p, reqHeaders (some s)⟩ ∧
    sessionAfter none (calls.take (i + 1)) =
      (match o with
       | HttpOutcome.success (some s') _ _ => if s'.isEmpty then some s else some s'
       | _ => some s) ∧
    (∀ (m : String) (o' : HttpOutcome),
       (mcp_notify (some s) m o').1 = (mcp_post (some s) (notifPayload m) o').1) := by
  obtain ⟨h1, h2, h3⟩ := runCalls_ind calls none sessInv_none i p o s hsess hcall
  refine ⟨h1, ?_, h2, ?_, fun m o' => rfl⟩
  · simp [reqHeaders, baseHeaders, h1]
  · rw [h3]
    cases o with
    | success sid body status =>
      cases sid with
      | none => rfl
      | some s' => rfl
    | httpError code hb body => rfl
    | urlError => rfl

/-- C7, witness on a concrete two-call trace: after the first response
sets `abc`, the second request carries `Mcp-Session-Id: abc` and the
cache still holds `abc` after the second response (which carries no
header). -/
theorem c7_witness :
    ("abc").isEmpty = false ∧
    ("Mcp-Session-Id", "abc") ∈ reqHeaders (some "abc") ∧
    (sentRequests none twoCalls).get? 1 =
      some ⟨toolsListPayload, reqHeaders (some "abc")⟩ ∧
    sessionAfter none (twoCalls.take 2) = some "abc" ∧
    (∀ (m : String) (o' : HttpOutcome),
       (mcp_notify (some "abc") m o').1 = (mcp_post (some "abc") (notifPayload m) o').1) :=
  c7_session_persistence twoCalls 1 toolsListPayload
    (HttpOutcome.success none [] 200) "abc" rfl rfl

/-- C8: a run that ends with the final summary exits 0 iff the failed
counter is 0; the early-abort path always exits 1; and any run whose
failed counter is positive when it ends exits 1 (uncaught exceptions
also make the interpreter exit 1). -/
theorem c8_exit_code (stock : String) (o1 o2 o3 o4 o5 : HttpOutcome) :
    (∀ code p f att, runScript stock o1 o2 o3 o4 o5 = .exited code p f att false →
       (code = 0 ↔ f = 0)) ∧
    (∀ code p f att, runScript stock o1 o2 o3 o4 o5 = .exited code p f att true →
       code = 1) ∧
    (0 < failedOf (runScript stock o1 o2 o3 o4 o5) →
       exitCodeOf (runScript stock o1 o2 o3 o4 o5) = 1) := by
  rcases runScript_shape stock o1 o2 o3 o4 o5 with h | ⟨e, p, f, att, h⟩ | ⟨p, f, h⟩ <;>
    rw [h] <;> refine ⟨?_, ?_, ?_⟩
  · intro code p' f' att' heq
    cases heq
  · intro code p' f' att' heq
    cases heq
    rfl
  · intro _
    rfl
  · intro code p' f' att' hexit
    cases hexit
  · intro code p' f' att' hexit
    cases hexit
  · intro _
    rfl
  · intro code p' f' att' hexit
    cases hexit
    by_cases hf : f > 0
    · simp [hf]
      omega
    · simp [hf]
      omega
  · intro code p' f' att' hexit
    cases hexit
  · intro hf
    simp [failedOf] at hf
    simp [exitCodeOf, hf]

/-- C8, witness: a run whose scenario 3 call fails has `failed = 1 > 0`
and exits with status 1. -/
theorem c8_witness :
    exitCodeOf (runScript "00700" okInit okNotifAck okTools HttpOutcome.urlError okCall) = 1 :=
  (c8_exit_code "00700" okInit okNotifAck okTools HttpOutcome.urlError okCall).2.2
    (by decide)

/-- C9: a 202 response with an empty body yields `(absent, 202)` both as
a successful response whose empty body fails JSON parsing and as an
HTTPError with code 202 — never status 0 — and the notification's
outcome contributes no verdict: the run result is independent of it. -/
theorem c9_notification_202 (session : Option String) (payload : Json) :
    (∀ sid : Option String,
       (mcp_post session payload (HttpOutcome.success sid [] 202)).2.2 = (none, 202)) ∧
    (∀ (hasBody : Bool) (body : Str),
       (mcp_post session payload (HttpOutcome.httpError 202 hasBody body)).2.2 =
         (none, 202)) ∧
    (∀ (stock : String) (o1 o2 o2' o3 o4 o5 : HttpOutcome),
       runScript stock o1 o2 o3 o4 o5 = runScript stock o1 o2' o3 o4 o5) := by
  refine ⟨fun sid => rfl, fun hb body => rfl, ?_⟩
  intro stock o1 o2 o2' o3 o4 o5
  cases o3 <;> cases o4 <;> cases o5 <;> rfl

/-- C10: the cached session id is unchanged by HTTPError and URLError
outcomes and by successful responses with an absent or empty
`Mcp-Session-Id` header; a successful response with a non-empty header
overwrites it; and the update never depends on the response body or
status (it happens before the body is read). -/
theorem c10_session_frame (session : Option String) (payload : Json) :
    (∀ (code : Nat) (hb : Bool) (body : Str),
       (mcp_post session payload (HttpOutcome.httpError code hb body)).2.1 = session) ∧
    ((mcp_post session payload HttpOutcome.urlError).2.1 = session) ∧
    (∀ (body : Str) (status : Nat),
       (mcp_post session payload (HttpOutcome.success none body status)).2.1 = session) ∧
    (∀ (body : Str) (status : Nat),
       (mcp_post session payload (HttpOutcome.success (some "") body status)).2.1 = session) ∧
    (∀ (s : String) (body : Str) (status : Nat), s.isEmpty = false →
       (mcp_post session payload (HttpOutcome.success (some s) body status)).2.1 = some s) ∧
    (∀ (sid : Option String) (body body' : Str) (status status' : Nat),
       (mcp_post session payload (HttpOutcome.success sid body status)).2.1 =
       (mcp_post session payload (HttpOutcome.success sid body' status')).2.1) := by
  refine ⟨fun _ _ _ => rfl, rfl, fun _ _ => rfl, fun _ _ => rfl, ?_, fun _ _ _ _ _ => rfl⟩
  intro s body status hs
  simp [mcp_post, sessionUpdate, hs]

/-- C10, witness: a successful response carrying the non-empty header
`abc` overwrites an existing cached id. -/
theorem c10_witness :
    (mcp_post (some "old") Json.null (HttpOutcome.success (some "abc") [] 200)).2.1 =
      some "abc" :=
  (c10_session_frame (some "old") Json.null).2.2.2.2.1 "abc" [] 200 rfl

end QtradeTestMcp
